import Mathlib

/-!
Verification of the IMAP LIST/SEARCH core of the mail-server repository.

The Rust sources under `crates/imap/src/op/{list.rs, search.rs}` are shallowly
embedded below: pure functions become Lean functions over lists of bytes
(`List Nat`, one entry per byte of the Rust `&[u8]` slices), stateful code
becomes explicit state passing, and fallible code returns `Except`.
External collaborators (the index store, the sequence resolver, header-name
parsing from the `mail_parser` crate) are passed in as explicit environment
data, mirroring the values the Rust code awaits from them.
-/

/-! ## Pattern matcher (`matches_pattern`, crates/imap/src/op/list.rs:309-375)

Bytes of interest: `%` = 37, `*` = 42, `/` = 47. -/

/-- A byte is one of the two IMAP wildcards `%` (37) or `*` (42). -/
def isWildcardByte (c : Nat) : Bool := c == 37 || c == 42

/-- Outcome of the inner tail-search loop of `matches_pattern`
(list.rs:333-355): `resume rest` models `continue 'inner` with the
un-consumed remainder of the mailbox name, `accept` models `return true`,
`fail` models `continue 'outer`. -/
inductive ScanResult where
  | resume (rest : List Nat)
  | accept
  | fail
deriving DecidableEq, Repr

/-- The inner loop of `matches_pattern` (list.rs:333-355): searches the
mailbox-name bytes for the literal tail `t` that follows a wildcard.
`count` is the running `match_count`; `patternEof` is `pattern_eof`
(the tail reaches the end of the pattern).  On a byte that matches
`t[count]` the counter advances; completing the tail either resumes the
outer scan (`!pattern_eof`), accepts when the name is also exhausted, or
resets the counter (anchor-at-end).  On a mismatching byte the counter is
reset to zero and the byte is consumed. -/
def scanTail (t : List Nat) (patternEof : Bool) : List Nat → Nat → ScanResult
  | [], _ => .fail
  | ch :: rest, count =>
    if t[count]? = some ch then
      if count + 1 = t.length then
        if !patternEof then
          .resume rest
        else if rest.isEmpty then
          .accept
        else
          scanTail t patternEof rest 0
      else
        scanTail t patternEof rest (count + 1)
    else
      scanTail t patternEof rest 0

/-- One pattern of `matches_pattern` (list.rs:318-371), scanning pattern
bytes against mailbox-name bytes.  On a wildcard byte the following literal
run (up to the next wildcard or the end of the pattern) becomes the tail
handed to `scanTail`; an empty tail returns `true` for `*` (regardless of
the remaining pattern bytes) and for `%` exactly when no remaining name
byte is `/`.  A literal byte must equal the next name byte.  An exhausted
pattern matches an exhausted name. -/
def matchOne : List Nat → List Nat → Bool
  | [], name => name.isEmpty
  | ch :: pat, name =>
    if isWildcardByte ch then
      let t := pat.takeWhile (fun c => !isWildcardByte c)
      let rest := pat.drop t.length
      if t.isEmpty then
        if ch == 42 || !(name.contains 47) then true else false
      else
        match scanTail t rest.isEmpty name 0 with
        | .resume name' => matchOne rest name'
        | .accept => true
        | .fail => false
    else
      match name with
      | nch :: name' => if nch == ch then matchOne pat name' else false
      | [] => false
termination_by p _ => p.length
decreasing_by
  · simp only [List.length_cons, List.length_drop]
    exact Nat.lt_succ_of_le (Nat.sub_le _ _)
  · simp only [List.length_cons]
    exact Nat.lt_succ_self _

/-- `matches_pattern` (list.rs:309-375): an empty pattern list matches every
name; otherwise some pattern must match. -/
def matches_pattern (patterns : List (List Nat)) (mailbox_name : List Nat) : Bool :=
  patterns.isEmpty || patterns.any (fun p => matchOne p mailbox_name)

/-! ## Reference wildcard semantics (from the spec, §4.1)

These definitions follow the spec's words, not the source; they exist only
to be compared with `matches_pattern`.  `%` matches zero or more bytes none
of which is `/`; `*` matches zero or more arbitrary bytes; matching is
byte-wise and case-sensitive. -/

/-- All suffixes of a byte list (the candidates left after `*` consumes a
prefix). Reference definition from the spec. -/
def suffixesOf : List Nat → List (List Nat)
  | [] => [[]]
  | c :: r => (c :: r) :: suffixesOf r

/-- The suffixes reachable by deleting a slash-free prefix (the candidates
left after `%` consumes a prefix). Reference definition from the spec. -/
def noSlashTails : List Nat → List (List Nat)
  | [] => [[]]
  | c :: r => (c :: r) :: (if c == 47 then [] else noSlashTails r)

/-- Reference wildcard matcher, written from the spec's words (§4.1): `%`
consumes a slash-free prefix, `*` consumes any prefix, a literal byte must
equal the next name byte, and an exhausted pattern requires an exhausted
name. -/
def refMatch : List Nat → List Nat → Bool
  | [], name => name.isEmpty
  | c :: pat, name =>
    if c == 42 then
      (suffixesOf name).any (fun s => refMatch pat s)
    else if c == 37 then
      (noSlashTails name).any (fun s => refMatch pat s)
    else
      match name with
      | [] => false
      | n :: name' => n == c && refMatch pat name'

/-- Reference semantics of the pattern-list matcher: empty list matches all,
otherwise some pattern matches. -/
def refMatches (patterns : List (List Nat)) (name : List Nat) : Bool :=
  patterns.isEmpty || patterns.any (fun p => refMatch p name)

theorem scanTail_accept_sound (t : List Nat) :
    ∀ (name : List Nat) (count : Nat),
      scanTail t true name count = ScanResult.accept →
      ∃ u, t.take count ++ name = u ++ t := by
  intro name
  induction name with
  | nil => intro count h; simp [scanTail] at h
  | cons ch rest ih =>
    intro count h
    simp only [scanTail, Bool.not_true, Bool.false_eq_true, if_false] at h
    split_ifs at h with h1 h2 h3
    · have hrest : rest = [] := by
        cases rest with
        | nil => rfl
        | cons a b => simp [List.isEmpty] at h3
      subst hrest
      refine ⟨[], ?_⟩
      have hstep : t.take (count + 1) = t.take count ++ [ch] := by
        simp [List.take_succ, h1]
      have hall : t.take (count + 1) = t := by rw [h2, List.take_length]
      have h4 : t.take count ++ [ch] = t := hstep.symm.trans hall
      simpa using h4
    · obtain ⟨u, hu⟩ := ih 0 h
      simp only [List.take_zero, List.nil_append] at hu
      refine ⟨t.take count ++ ch :: u, ?_⟩
      simp [hu, List.append_assoc]
    · obtain ⟨u, hu⟩ := ih (count + 1) h
      have hstep : t.take (count + 1) = t.take count ++ [ch] := by
        simp [List.take_succ, h1]
      refine ⟨u, ?_⟩
      rw [← hu, hstep]
      simp
    · obtain ⟨u, hu⟩ := ih 0 h
      simp only [List.take_zero, List.nil_append] at hu
      refine ⟨t.take count ++ ch :: u, ?_⟩
      simp [hu, List.append_assoc]

theorem scanTail_resume_sound (t : List Nat) :
    ∀ (name : List Nat) (count : Nat) (r : List Nat),
      scanTail t false name count = ScanResult.resume r →
      ∃ u, t.take count ++ name = u ++ t ++ r := by
  intro name
  induction name with
  | nil => intro count r h; simp [scanTail] at h
  | cons ch rest ih =>
    intro count r h
    simp only [scanTail, Bool.not_false, if_true] at h
    split_ifs at h with h1 h2
    · have hr : r = rest := by
        cases h; rfl
      subst hr
      refine ⟨[], ?_⟩
      have hstep : t.take (count + 1) = t.take count ++ [ch] := by
        simp [List.take_succ, h1]
      have hall : t.take (count + 1) = t := by rw [h2, List.take_length]
      have h4 : t.take count ++ [ch] = t := hstep.symm.trans hall
      simp only [List.nil_append]
      conv_rhs => rw [← h4]
      simp [List.append_assoc]
    · obtain ⟨u, hu⟩ := ih (count + 1) r h
      have hstep : t.take (count + 1) = t.take count ++ [ch] := by
        simp [List.take_succ, h1]
      refine ⟨u, ?_⟩
      rw [← hu, hstep]
      simp
    · obtain ⟨u, hu⟩ := ih 0 r h
      simp only [List.take_zero, List.nil_append] at hu
      refine ⟨t.take count ++ ch :: u, ?_⟩
      simp [hu, List.append_assoc]

theorem scanTail_eof_no_resume (t : List Nat) :
    ∀ (name : List Nat) (count : Nat) (r : List Nat),
      scanTail t true name count ≠ ScanResult.resume r := by
  intro name
  induction name with
  | nil => intro count r h; simp [scanTail] at h
  | cons ch rest ih =>
    intro count r h
    simp only [scanTail, Bool.not_true, Bool.false_eq_true, if_false] at h
    split_ifs at h with h1 h2 h3
    · exact ih 0 r h
    · exact ih (count + 1) r h
    · exact ih 0 r h

/-- **C1** (code bug): `matches_pattern` does not agree with the reference
IMAP wildcard semantics: bytes consumed by a `%` with a literal tail may
include `/`.  At pattern `"%b"` ([37,98]) and name `"a/b"` ([97,47,98]) the
code matches while the reference semantics (`%` never crosses `/`) rejects. -/
theorem c1_percent_crosses_slash :
    matches_pattern [[37, 98]] [97, 47, 98] = true ∧
    refMatches [[37, 98]] [97, 47, 98] = false := by
  constructor
  · simp [matches_pattern, matchOne, scanTail, isWildcardByte, List.takeWhile]
  · decide

/-- **C5** (counterexample): pattern `"*aab"` ([42,97,97,98]) has wildcard
`*` followed by the final literal tail `"aab"`; the name `"aaab"`
([97,97,97,98]) ends with that tail, so the claim ("for every name ending
with the tail, the pattern matches") demands a match, but `matches_pattern`
rejects (its reset-on-mismatch scan misses the occurrence), while the
reference semantics accepts. -/
theorem c5_counterexample :
    matches_pattern [[42, 97, 97, 98]] [97, 97, 97, 98] = false ∧
    [97, 97, 97, 98] = [97] ++ [97, 97, 98] ∧
    refMatches [[42, 97, 97, 98]] [97, 97, 97, 98] = true := by
  refine ⟨?_, rfl, by decide⟩
  simp [matches_pattern, matchOne, scanTail, isWildcardByte, List.takeWhile]

/-- **C5** (amended): the tail search after a wildcard is a
reset-on-mismatch scan, not the reference first-occurrence substring
search — it can miss occurrences that overlap a partially matched prefix —
but it is sound: for a final-segment tail, a successful match implies the
name really ends with the tail, and for a non-final tail, a resumed scan
has consumed exactly some prefix followed by the tail. -/
theorem c5_tail_scan_sound (t name : List Nat)
    (ht : t ≠ []) (hlit : ∀ c ∈ t, isWildcardByte c = false) :
    (matchOne (42 :: t) name = true → ∃ u, name = u ++ t) ∧
    (∀ r, scanTail t false name 0 = ScanResult.resume r →
      ∃ u, name = u ++ t ++ r) := by
  constructor
  · intro h
    have htw : t.takeWhile (fun c => !isWildcardByte c) = t := by
      rw [List.takeWhile_eq_self_iff]
      intro x hx; simp [hlit x hx]
    have htne : t.isEmpty = false := by
      cases t with
      | nil => exact absurd rfl ht
      | cons a b => rfl
    have h42 : isWildcardByte 42 = true := by decide
    rw [matchOne.eq_def] at h
    simp only [h42, htw, htne, List.drop_length, List.isEmpty_nil, if_true,
      eq_self_iff_true, Bool.false_eq_true, if_false] at h
    cases hs : scanTail t true name 0 with
    | resume r => exact absurd hs (scanTail_eof_no_resume t name 0 r)
    | accept =>
      obtain ⟨u, hu⟩ := scanTail_accept_sound t name 0 hs
      simp only [List.take_zero, List.nil_append] at hu
      exact ⟨u, hu⟩
    | fail => rw [hs] at h; simp at h
  · intro r hr
    obtain ⟨u, hu⟩ := scanTail_resume_sound t name 0 r hr
    simp only [List.take_zero, List.nil_append] at hu
    exact ⟨u, hu⟩

/-- Witness for `c5_tail_scan_sound` at tail `"b"` and name `"ab"`. -/
theorem c5_tail_scan_sound_witness : ∃ u, [97, 98] = u ++ [98] :=
  (c5_tail_scan_sound [98] [97, 98] (by decide) (by decide)).1 (by
    simp [matchOne, scanTail, isWildcardByte, List.takeWhile])

/-- **C10**: when a `*` is followed by an empty literal tail (it is the last
pattern byte or the next byte is another wildcard), the scan returns `true`
for every remaining mailbox name, ignoring all pattern bytes after the `*`.
`matchOne` applied to the pattern remainder starting at that `*` is exactly
the scan state "the scan has reached that `*`". -/
theorem c10_star_empty_tail_matches_all (s name : List Nat)
    (h : s = [] ∨ ∃ c s', s = c :: s' ∧ isWildcardByte c = true) :
    matchOne (42 :: s) name = true := by
  have h42 : isWildcardByte 42 = true := by decide
  rcases h with rfl | ⟨c, s', rfl, hc⟩
  · rw [matchOne.eq_def]
    simp [h42, List.takeWhile]
  · rw [matchOne.eq_def]
    simp [h42, hc, List.takeWhile]

/-- Witness for `c10_star_empty_tail_matches_all`: the pattern `"*%a"`
([42,37,97]) matches `"xyz"` ([120,121,122]), a name not ending in `a`. -/
theorem c10_witness : matchOne [42, 37, 97] [120, 121, 122] = true :=
  c10_star_empty_tail_matches_all [37, 97] [120, 121, 122]
    (Or.inr ⟨37, [97], rfl, by decide⟩)

/-! ## LIST engine (`SessionData::list`, crates/imap/src/op/list.rs:83-305)

Mailbox names are byte lists.  The namespace snapshot (`self.mailboxes`),
the IMAP configuration (`self.imap`) and the protocol version are inputs;
the emitted list items are the output, `Except` carrying the early tagged
BAD error.  The STATUS attachment phase (list.rs:268-284) queries an
external collaborator per emitted item and never changes the item list, so
it is not part of this embedding. -/

/-- LIST attribute tokens (`imap_proto` `Attribute`). -/
inductive Attribute where
  | All | NoInferiors | HasChildren | HasNoChildren | NoSelect | Subscribed
  | Archive | Drafts | Junk | Sent | Trash | Flagged | Important
deriving DecidableEq, Repr

/-- `imap_proto` `ChildInfo`. -/
inductive ChildInfo where
  | Subscribed
deriving DecidableEq, Repr

/-- `imap_proto` `Tag` attached to a list item. -/
inductive Tag where
  | ChildInfo (c : List ChildInfo)
deriving DecidableEq, Repr

/-- `imap_proto` `ListItem`. -/
structure ListItem where
  mailbox_name : List Nat
  attributes : List Attribute
  tags : List Tag
deriving DecidableEq, Repr

/-- `imap_proto` `SelectionOption` (list.rs:126-141). -/
inductive SelectionOption where
  | Subscribed | Remote | SpecialUse | RecursiveMatch
deriving DecidableEq, Repr

/-- `imap_proto` `ReturnOption`; the `Status` payload is irrelevant to the
emitted list items and dropped. -/
inductive ReturnOption where
  | Subscribed | Children | Status | SpecialUse
deriving DecidableEq, Repr

/-- Protocol version (rev1 or rev2). -/
inductive ProtocolVersion where
  | Rev1 | Rev2
deriving DecidableEq, Repr

/-- `ProtocolVersion::is_rev2`. -/
def ProtocolVersion.is_rev2 : ProtocolVersion → Bool
  | .Rev1 => false
  | .Rev2 => true

/-- Per-mailbox state consulted by the LIST engine (`MailboxState` entry of
an account: subscription flag, child presence, special-use). -/
structure MailboxEntry where
  is_subscribed : Bool
  has_children : Bool
  special_use : Option Attribute
deriving DecidableEq, Repr

/-- A session account view (`core::Account`): optional shared-namespace
name (the Rust field is called `prefix`; renamed here because `prefix` is a
Lean keyword), the name→id list iterated by the engine, and the per-id
mailbox state (`mailbox_state.get(id).unwrap()` modelled as a total
function). -/
structure AccountView where
  account_prefix : Option (List Nat)
  mailbox_names : List (List Nat × Nat)
  mailbox_state : Nat → MailboxEntry

/-- IMAP server configuration consulted by LIST. -/
structure ImapConfig where
  name_all_enable : Bool
  name_all : List Nat
  name_shared : List Nat

/-- The policy flags derived from selection and return options
(list.rs:118-157). -/
structure ListFlags where
  filter_subscribed : Bool
  filter_special_use : Bool
  recursive_match : Bool
  include_special_use : Bool
  include_subscribed : Bool
  include_children : Bool
  include_status : Bool
deriving DecidableEq, Repr

/-- One step of the selection-option loop (list.rs:126-141). -/
def applySelectionOption (f : ListFlags) : SelectionOption → ListFlags
  | .Subscribed => { f with filter_subscribed := true, include_subscribed := true }
  | .Remote => f
  | .SpecialUse => { f with filter_special_use := true, include_special_use := true }
  | .RecursiveMatch => { f with recursive_match := true }

/-- One step of the return-option loop (list.rs:142-157). -/
def applyReturnOption (f : ListFlags) : ReturnOption → ListFlags
  | .Subscribed => { f with include_subscribed := true }
  | .Children => { f with include_children := true }
  | .Status => { f with include_status := true }
  | .SpecialUse => { f with include_special_use := true }

/-- The flag state after both option loops; `include_special_use` starts at
`version.is_rev2()` (list.rs:122). -/
def computeFlags (version : ProtocolVersion) (sel : List SelectionOption)
    (ret : List ReturnOption) : ListFlags :=
  ret.foldl applyReturnOption
    (sel.foldl applySelectionOption
      { filter_subscribed := false, filter_special_use := false,
        recursive_match := false, include_special_use := version.is_rev2,
        include_subscribed := false, include_children := false,
        include_status := false })

/-- `s` starts with the byte sequence `p` (Rust `starts_with`). -/
def startsWithBytes : List Nat → List Nat → Bool
  | [], _ => true
  | _ :: _, [] => false
  | a :: l, b :: m => a == b && startsWithBytes l m

/-- The recursive-match probe of list.rs:224-234: some account mailbox
whose name begins with `name ++ "/"` is subscribed. -/
def hasSubscribedDescendant (a : AccountView) (name : List Nat) : Bool :=
  a.mailbox_names.any fun q =>
    startsWithBytes (name ++ [47]) q.1 && (a.mailbox_state q.2).is_subscribed

/-- Emission of one account mailbox (list.rs:220-264): pattern filter,
subscription filter with the recursive-match escape, attribute synthesis
(children, subscribed, special-use — skipping the mailbox entirely when
special-use is filtered and absent), and the CHILDINFO tag. -/
def emitMailbox (flags : ListFlags) (patterns : List (List Nat))
    (a : AccountView) (p : List Nat × Nat) : Option ListItem :=
  let name := p.1
  let mailbox := a.mailbox_state p.2
  if matches_pattern patterns name then
    let has_recursive_match := flags.recursive_match && hasSubscribedDescendant a name
    if !flags.filter_subscribed || mailbox.is_subscribed || has_recursive_match then
      if flags.include_special_use && mailbox.special_use.isNone
          && flags.filter_special_use then
        none
      else
        some
          { mailbox_name := name
            attributes :=
              (if flags.include_children then
                [if mailbox.has_children then Attribute.HasChildren
                 else Attribute.HasNoChildren]
               else [])
              ++ (if flags.include_subscribed && mailbox.is_subscribed then
                    [Attribute.Subscribed]
                  else [])
              ++ (match mailbox.special_use with
                  | some su => if flags.include_special_use then [su] else []
                  | none => [])
            tags :=
              if !has_recursive_match then []
              else [Tag.ChildInfo [ChildInfo.Subscribed]] }
    else none
  else none

/-- The synthesized "Shared Folders" item (list.rs:194-204). -/
def sharedFolderItem (cfg : ImapConfig) (flags : ListFlags) : ListItem :=
  { mailbox_name := cfg.name_shared
    attributes :=
      if flags.include_children then [Attribute.HasChildren, Attribute.NoSelect]
      else [Attribute.NoSelect]
    tags := [] }

/-- The synthesized account-prefix item (list.rs:207-217). -/
def sharedPrefixItem (flags : ListFlags) (pfx : List Nat) : ListItem :=
  { mailbox_name := pfx
    attributes :=
      if flags.include_children then [Attribute.HasChildren, Attribute.NoSelect]
      else [Attribute.NoSelect]
    tags := [] }

/-- One iteration of the account loop (list.rs:191-266); the `Bool`
accumulator is `added_shared_folder`. -/
def accountStep (cfg : ImapConfig) (flags : ListFlags)
    (patterns : List (List Nat)) (st : Bool × List ListItem)
    (a : AccountView) : Bool × List ListItem :=
  let (added, items) := st
  match a.account_prefix with
  | some pfx =>
    let stShared :=
      if !added then
        (true,
          items ++
            (if !flags.filter_subscribed
                && matches_pattern patterns cfg.name_shared then
              [sharedFolderItem cfg flags]
            else []))
      else (added, items)
    let itemsPfx :=
      stShared.2 ++
        (if !flags.filter_subscribed && matches_pattern patterns pfx then
          [sharedPrefixItem flags pfx]
        else [])
    (stShared.1, itemsPfx ++ a.mailbox_names.filterMap (emitMailbox flags patterns a))
  | none =>
    (added, items ++ a.mailbox_names.filterMap (emitMailbox flags patterns a))

/-- `SessionData::list` (list.rs:83-305) after a successful mailbox
synchronization: derive the flags, reject lone RECURSIVEMATCH with the
tagged BAD text, prefix the patterns with the reference name, then emit the
"All Mail" item, the shared-namespace items and the per-account mailbox
items in source order. -/
def list (cfg : ImapConfig) (accounts : List AccountView)
    (version : ProtocolVersion) (sel : List SelectionOption)
    (ret : List ReturnOption) (reference_name : List Nat)
    (patterns0 : List (List Nat)) : Except String (List ListItem) :=
  let flags := computeFlags version sel ret
  if flags.recursive_match && !flags.filter_subscribed then
    .error "RECURSIVEMATCH cannot be the only selection option."
  else
    let patterns :=
      if !patterns0.isEmpty && !reference_name.isEmpty then
        patterns0.map (fun p => reference_name ++ p)
      else patterns0
    let allMail :=
      if cfg.name_all_enable && !flags.filter_subscribed
          && matches_pattern patterns cfg.name_all then
        [{ mailbox_name := cfg.name_all,
           attributes := [Attribute.All, Attribute.NoInferiors], tags := [] }]
      else []
    .ok (allMail ++ (accounts.foldl (accountStep cfg flags patterns) (false, [])).2)

theorem selFold_recursive_match (sel : List SelectionOption) (f : ListFlags) :
    (sel.foldl applySelectionOption f).recursive_match = true ↔
      (f.recursive_match = true ∨ SelectionOption.RecursiveMatch ∈ sel) := by
  induction sel generalizing f with
  | nil => simp
  | cons a l ih =>
    simp only [List.foldl_cons, ih, List.mem_cons]
    cases a <;> simp [applySelectionOption]

theorem selFold_filter_subscribed (sel : List SelectionOption) (f : ListFlags) :
    (sel.foldl applySelectionOption f).filter_subscribed = true ↔
      (f.filter_subscribed = true ∨ SelectionOption.Subscribed ∈ sel) := by
  induction sel generalizing f with
  | nil => simp
  | cons a l ih =>
    simp only [List.foldl_cons, ih, List.mem_cons]
    cases a <;> simp [applySelectionOption]

theorem retFold_preserves (ret : List ReturnOption) (f : ListFlags) :
    (ret.foldl applyReturnOption f).recursive_match = f.recursive_match ∧
    (ret.foldl applyReturnOption f).filter_subscribed = f.filter_subscribed := by
  induction ret generalizing f with
  | nil => exact ⟨rfl, rfl⟩
  | cons a l ih =>
    cases a <;> simpa [applyReturnOption] using ih _

theorem computeFlags_recursive_match (v : ProtocolVersion)
    (sel : List SelectionOption) (ret : List ReturnOption) :
    (computeFlags v sel ret).recursive_match = true ↔
      SelectionOption.RecursiveMatch ∈ sel := by
  unfold computeFlags
  rw [(retFold_preserves ret _).1, selFold_recursive_match]
  simp

theorem computeFlags_filter_subscribed (v : ProtocolVersion)
    (sel : List SelectionOption) (ret : List ReturnOption) :
    (computeFlags v sel ret).filter_subscribed = true ↔
      SelectionOption.Subscribed ∈ sel := by
  unfold computeFlags
  rw [(retFold_preserves ret _).2, selFold_filter_subscribed]
  simp

/-- **C8**: a LIST whose selection options contain RECURSIVEMATCH but not
SUBSCRIBED answers exactly the tagged BAD
"RECURSIVEMATCH cannot be the only selection option." and emits nothing. -/
theorem c8_recursivematch_alone_rejected (cfg : ImapConfig)
    (accounts : List AccountView) (version : ProtocolVersion)
    (sel : List SelectionOption) (ret : List ReturnOption)
    (reference_name : List Nat) (patterns : List (List Nat))
    (h1 : SelectionOption.RecursiveMatch ∈ sel)
    (h2 : SelectionOption.Subscribed ∉ sel) :
    list cfg accounts version sel ret reference_name patterns =
      .error "RECURSIVEMATCH cannot be the only selection option." := by
  have hr : (computeFlags version sel ret).recursive_match = true :=
    (computeFlags_recursive_match version sel ret).mpr h1
  have hs : (computeFlags version sel ret).filter_subscribed = false := by
    cases hfs : (computeFlags version sel ret).filter_subscribed
    · rfl
    · exact absurd ((computeFlags_filter_subscribed version sel ret).mp hfs) h2
  unfold list
  simp [hr, hs]

/-- Witness for `c8_recursivematch_alone_rejected`. -/
theorem c8_witness :
    list ⟨false, [], []⟩ [] ProtocolVersion.Rev1 [SelectionOption.RecursiveMatch]
        [] [] [] =
      .error "RECURSIVEMATCH cannot be the only selection option." :=
  c8_recursivematch_alone_rejected _ _ _ _ _ _ _ (by decide) (by decide)

theorem emitMailbox_subscription (flags : ListFlags) (patterns : List (List Nat))
    (a : AccountView) (p : List Nat × Nat) (item : ListItem)
    (hfs : flags.filter_subscribed = true)
    (h : emitMailbox flags patterns a p = some item) :
    item.mailbox_name = p.1 ∧
    ((a.mailbox_state p.2).is_subscribed = true ∨
      (flags.recursive_match && hasSubscribedDescendant a p.1) = true) ∧
    (item.tags = [Tag.ChildInfo [ChildInfo.Subscribed]] ↔
      (flags.recursive_match && hasSubscribedDescendant a p.1) = true) := by
  unfold emitMailbox at h
  simp only [hfs, Bool.not_true, Bool.false_or] at h
  split at h
  case isFalse => exact absurd h (by simp)
  case isTrue hm =>
    split at h
    case isFalse => exact absurd h (by simp)
    case isTrue hemit =>
      split at h
      case isTrue => exact absurd h (by simp)
      case isFalse hskip =>
        have hitem := Option.some.inj h
        refine ⟨by rw [← hitem], ?_, ?_⟩
        · rcases Bool.or_eq_true _ _ |>.mp hemit with hsub | hrm
          · exact Or.inl hsub
          · exact Or.inr hrm
        · cases hrm : (flags.recursive_match && hasSubscribedDescendant a p.1) <;>
            simp [← hitem, hrm]

theorem accountFold_mem (cfg : ImapConfig) (flags : ListFlags)
    (patterns : List (List Nat)) (hfs : flags.filter_subscribed = true) :
    ∀ (accounts : List AccountView) (st : Bool × List ListItem)
      (item : ListItem),
      item ∈ (accounts.foldl (accountStep cfg flags patterns) st).2 →
      item ∈ st.2 ∨ ∃ a ∈ accounts, ∃ p ∈ a.mailbox_names,
        emitMailbox flags patterns a p = some item := by
  intro accounts
  induction accounts with
  | nil => intro st item h; exact Or.inl h
  | cons a l ih =>
    intro st item h
    obtain ⟨added, items⟩ := st
    rw [List.foldl_cons] at h
    rcases ih _ item h with hin | ⟨b, hb, q, hq, hemit⟩
    · -- item came from this account's step
      unfold accountStep at hin
      simp only [hfs, Bool.not_true, Bool.false_and, Bool.false_eq_true,
        if_false, List.append_nil] at hin
      rcases ha : a.account_prefix with _ | pfx <;> rw [ha] at hin <;>
        simp only [List.append_nil] at hin
      · rcases List.mem_append.mp hin with h1 | h2
        · exact Or.inl h1
        · exact Or.inr ⟨a, List.mem_cons_self _ _,
            (List.mem_filterMap.mp h2).imp fun q hq => ⟨hq.1, hq.2⟩⟩
      · -- with a prefix: the shared/prefix conditionals vanish under hfs
        split at hin
        all_goals
          simp only [List.append_nil] at hin
          rcases List.mem_append.mp hin with h1 | h2
          · exact Or.inl h1
          · exact Or.inr ⟨a, List.mem_cons_self _ _,
              (List.mem_filterMap.mp h2).imp fun q hq => ⟨hq.1, hq.2⟩⟩
    · exact Or.inr ⟨b, List.mem_cons_of_mem _ hb, q, hq, hemit⟩

/-- **C3**: when the subscription filter is active, every emitted mailbox
item names a mailbox of some account that is subscribed, or — with
RECURSIVEMATCH selected — has a subscribed descendant (a mailbox whose name
extends it by "/"); and the CHILDINFO ("SUBSCRIBED") tag is attached
exactly when RECURSIVEMATCH is selected and such a subscribed descendant
exists. -/
theorem c3_filter_subscribed_invariant (cfg : ImapConfig)
    (accounts : List AccountView) (version : ProtocolVersion)
    (sel : List SelectionOption) (ret : List ReturnOption)
    (reference_name : List Nat) (patterns0 : List (List Nat))
    (l : List ListItem)
    (hok : list cfg accounts version sel ret reference_name patterns0 =
      Except.ok l)
    (hsub : SelectionOption.Subscribed ∈ sel) :
    ∀ item ∈ l, ∃ a ∈ accounts, ∃ mid,
      (item.mailbox_name, mid) ∈ a.mailbox_names ∧
      ((a.mailbox_state mid).is_subscribed = true ∨
        (SelectionOption.RecursiveMatch ∈ sel ∧
          hasSubscribedDescendant a item.mailbox_name = true)) ∧
      (item.tags = [Tag.ChildInfo [ChildInfo.Subscribed]] ↔
        (SelectionOption.RecursiveMatch ∈ sel ∧
          hasSubscribedDescendant a item.mailbox_name = true)) := by
  intro item hitem
  have hfs : (computeFlags version sel ret).filter_subscribed = true :=
    (computeFlags_filter_subscribed version sel ret).mpr hsub
  unfold list at hok
  simp only [hfs, Bool.not_true, Bool.and_false, Bool.false_and,
    Bool.false_eq_true, if_false, List.nil_append] at hok
  obtain rfl : _ = l := Except.ok.inj hok
  rcases accountFold_mem cfg _ _ hfs accounts (false, []) item hitem with
    habs | ⟨a, ha, p, hq, hemit⟩
  · exact absurd habs (List.not_mem_nil item)
  · obtain ⟨hname, hcond, htags⟩ :=
      emitMailbox_subscription _ _ _ _ _ hfs hemit
    refine ⟨a, ha, p.2, ?_, ?_, ?_⟩
    · rw [hname, Prod.mk.eta]; exact hq
    · rw [hname]
      rcases hcond with hs | hrm
      · exact Or.inl hs
      · obtain ⟨h1, h2⟩ := Bool.and_eq_true _ _ |>.mp hrm
        exact Or.inr ⟨(computeFlags_recursive_match version sel ret).mp h1, h2⟩
    · rw [hname, htags]
      simp [Bool.and_eq_true, computeFlags_recursive_match version sel ret]

/-- Witness for `c3_filter_subscribed_invariant`: one account with
`Inbox` ([73]) unsubscribed and `Inbox/Work` ([73,47,87]) subscribed,
LIST (SUBSCRIBED RECURSIVEMATCH) with pattern "*"; the emitted `Inbox`
item carries the CHILDINFO tag because of its subscribed child. -/
theorem c3_witness :
    ∃ a ∈ [AccountView.mk none [([73], 0), ([73, 47, 87], 1)]
        (fun i => if i == 1 then ⟨true, false, none⟩ else ⟨false, true, none⟩)],
      ∃ mid,
        ((ListItem.mk [73] [] [Tag.ChildInfo [ChildInfo.Subscribed]]).mailbox_name,
            mid) ∈ a.mailbox_names ∧
        ((a.mailbox_state mid).is_subscribed = true ∨
          (SelectionOption.RecursiveMatch ∈
              [SelectionOption.Subscribed, SelectionOption.RecursiveMatch] ∧
            hasSubscribedDescendant a
              (ListItem.mk [73] []
                [Tag.ChildInfo [ChildInfo.Subscribed]]).mailbox_name = true)) ∧
        ((ListItem.mk [73] [] [Tag.ChildInfo [ChildInfo.Subscribed]]).tags =
            [Tag.ChildInfo [ChildInfo.Subscribed]] ↔
          (SelectionOption.RecursiveMatch ∈
              [SelectionOption.Subscribed, SelectionOption.RecursiveMatch] ∧
            hasSubscribedDescendant a
              (ListItem.mk [73] []
                [Tag.ChildInfo [ChildInfo.Subscribed]]).mailbox_name = true)) := by
  refine c3_filter_subscribed_invariant ⟨false, [], []⟩
    [AccountView.mk none [([73], 0), ([73, 47, 87], 1)]
      (fun i => if i == 1 then ⟨true, false, none⟩ else ⟨false, true, none⟩)]
    ProtocolVersion.Rev1
    [SelectionOption.Subscribed, SelectionOption.RecursiveMatch] [] [] [[42]]
    [ListItem.mk [73] [] [Tag.ChildInfo [ChildInfo.Subscribed]],
      ListItem.mk [73, 47, 87] [Attribute.Subscribed] []]
    ?_ (by decide)
    (ListItem.mk [73] [] [Tag.ChildInfo [ChildInfo.Subscribed]]) (by decide)
  rw [list.eq_def]
  simp [computeFlags, applySelectionOption, accountStep, emitMailbox,
    hasSubscribedDescendant, startsWithBytes, matches_pattern, matchOne,
    scanTail, isWildcardByte, List.takeWhile, ProtocolVersion.is_rev2]

/-! ## SEARCH filter compiler (`SessionData::query`, crates/imap/src/op/search.rs:248-652)

Store reads (`get_tag`, `get_document_ids`, the change log, the literal
sequence resolver and `mail_parser` header parsing) are supplied through a
`QueryEnv`; bitmaps are lists of document ids with set-semantics insertion. -/

/-- `core::ImapId`: a (uid, seqnum) pair. -/
structure ImapId where
  uid : Nat
  seqnum : Nat
deriving DecidableEq, Repr

/-- `jmap_proto` keywords used by the compiler. -/
inductive Keyword where
  | Answered | Deleted | Draft | Flagged | Seen | Recent
  | Other (s : String)
deriving DecidableEq, Repr

/-- `Keyword::from(String)` for user keywords; the concrete renaming of
well-known flags is irrelevant to the claims, so every string maps to
`Other`. -/
def Keyword.ofString (s : String) : Keyword := Keyword.Other s

/-- `jmap_proto` properties referenced by the compiler. -/
inductive Property where
  | Keywords | ReceivedAt | SentAt | Size | Subject | TextBody | From | To
  | Cc | Bcc | Attachments | Headers | ThreadId | MailboxIds
deriving DecidableEq, Repr

/-- Search languages appearing in the compiler (`nlp::language::Language`;
renamed, `Language` is taken by Mathlib): address-like fields use
`Language::None`; the configured default language is carried implicitly by
the `has_text_detect` constructor. -/
inductive NlpLanguage where
  | None
deriving DecidableEq, Repr

/-- The value stored in an `is_in_bitmap` atom: either a keyword or a
document id (for `ThreadId`). -/
inductive BmValue where
  | kw (k : Keyword)
  | docId (n : Nat)
deriving DecidableEq, Repr

/-- The postfix filter atoms of `store::query::Filter` as constructed by
the compiler (`is_in_set`, `is_in_bitmap`, `has_text`, `has_text_detect`,
`has_raw_text`, `lt`, `gt`, `ge`, `le`, and the `And`/`Or`/`Not`/`End`
grouping markers). -/
inductive QFilter where
  | is_in_set (ids : List Nat)
  | is_in_bitmap (p : Property) (v : BmValue)
  | has_text (p : Property) (t : String) (l : NlpLanguage)
  | has_text_detect (p : Property) (t : String)
  | has_raw_text (p : Property) (t : String)
  | lt (p : Property) (v : Nat)
  | gt (p : Property) (v : Nat)
  | ge (p : Property) (v : Nat)
  | le (p : Property) (v : Nat)
  | And | Or | Not | End
deriving DecidableEq, Repr

/-- `imap_proto` `Sequence`. -/
inductive Sequence where
  | Number (n : Nat)
  | Range (lo hi : Option Nat)
  | SavedSearch
  | SeqList (xs : List (Nat × Nat))
deriving DecidableEq, Repr

/-- `mail_parser::HeaderName` as seen by the compiler: the four id-like
headers, other RFC headers identified by their numeric id, and
`Other` (free-form, rejected). -/
inductive HName where
  | MessageId | InReplyTo | References | ResentMessageId
  | OtherRfc (id : Nat)
  | Other (raw : String)
deriving DecidableEq, Repr

/-- `HeaderName::id()`; the concrete numbers of `mail_parser` are opaque to
this repository, only their string images reach the output. -/
def headerId : HName → Nat
  | .MessageId => 139
  | .InReplyTo => 140
  | .References => 141
  | .ResentMessageId => 142
  | .OtherRfc i => i
  | .Other _ => 0

/-- The four id-like headers whose tokens keep their case
(search.rs:364-370). -/
def isIdHeader : HName → Bool
  | .MessageId | .InReplyTo | .References | .ResentMessageId => true
  | _ => false

/-- Rust `char::is_ascii_whitespace`. -/
def isAsciiWhitespace (c : Char) : Bool :=
  c.toNat == 32 || c.toNat == 9 || c.toNat == 10 || c.toNat == 12 || c.toNat == 13

/-- Rust `str::split_ascii_whitespace`: split on runs of ASCII whitespace,
discarding empty pieces. -/
def splitAsciiWhitespace (s : String) : List String :=
  (s.split isAsciiWhitespace).filter (fun x => !x.isEmpty)

/-- `RoaringBitmap::insert` on the list model: append if absent. -/
def bmInsert (l : List Nat) (x : Nat) : List Nat :=
  if l.contains x then l else l ++ [x]

/-- The saved-search translation of search.rs:287-292: each saved ImapId's
uid is looked up in `uid_to_id`; hits are inserted into the bitmap, misses
are dropped. -/
def savedSearchSet (uidToId : List (Nat × Nat)) (items : List ImapId) : List Nat :=
  items.foldl
    (fun s i =>
      match uidToId.lookup i.uid with
      | some id => bmInsert s id
      | none => s)
    []

/-- The environment of one `query` run: the store reads and external
resolvers the compiler awaits. -/
structure QueryEnv where
  /-- `get_tag(account, Email, MailboxIds, mailbox_id).unwrap_or_default()`
  for the selected real mailbox (search.rs:258-267). -/
  getTagResult : List Nat
  /-- `get_document_ids(account, Email).unwrap_or_default()` for the
  virtual "all mail" mailbox (search.rs:271-274). -/
  allDocumentIds : List Nat
  /-- The `prev_saved_search` argument: `some` exactly when the command
  carries RESULT SAVE, holding the slot value captured by `handle_search`. -/
  prevSavedSearch : Option (Option (List ImapId))
  /-- The selected mailbox's current saved-search contents, consumed by the
  modelled `sequence_to_ids` on the non-SAVE path. -/
  savedSlot : Option (List ImapId)
  /-- `MailboxState::uid_to_id`. -/
  uid_to_id : List (Nat × Nat)
  /-- Resolver for literal (non saved-search) sequences:
  `SelectedMailbox::sequence_to_ids` key sets. -/
  litSeq : Sequence → Bool → Except String (List Nat)
  /-- `mail_parser::HeaderName::parse`. -/
  parseHeaderName : String → Option HName
  /-- `store::fts::builder::MAX_TOKEN_LENGTH`. -/
  maxTokenLength : Nat
  /-- `store::write::now()`. -/
  nowVal : Nat
  /-- `changes_(account, Email, from_modseq m)`: the `unwrap_id()` values of
  the change entries. -/
  changesSince : Nat → List Nat
  /-- `jmap_proto Id::from_bytes(...)` followed by `document_id()`. -/
  idFromBytes : String → Option Nat
  /-- The `is_uid` flag of the command. -/
  isUid : Bool

/-- An apostrophe, kept out of string literals. -/
def squote : String := String.mk [Char.ofNat 39]

/-- Modelled from the spec: `SelectedMailbox::sequence_to_ids`
(crates/imap/src/core/mailbox.rs) is not under src/.  Per §4.3 "Sequence
resolution", resolving the saved-search sequence requires a prior saved
search, failing the search with "No saved search found." when there is
none, and translates saved ImapIds through the mailbox state; literal
sequence sets resolve through the mailbox state, abstracted as the
environment's resolver. -/
def sequence_to_ids (env : QueryEnv) (seq : Sequence) (uidMode : Bool) :
    Except String (List Nat) :=
  match seq with
  | .SavedSearch =>
    match env.savedSlot with
    | some items => .ok (savedSearchSet env.uid_to_id items)
    | none => .error "No saved search found."
  | s => env.litSeq s uidMode

/-- `imap_proto` `search::Filter`: the parsed IMAP search criteria
(variants as matched in search.rs:280-643). -/
inductive SFilter where
  | Sequence (s : Sequence) (uidFilter : Bool)
  | All | Answered
  | Bcc (t : String)
  | Before (d : Nat)
  | Body (t : String)
  | Cc (t : String)
  | Deleted | Draft | Flagged
  | From (t : String)
  | Header (h v : String)
  | Keyword (k : String)
  | Larger (n : Nat)
  | On (d : Nat)
  | Seen
  | SentBefore (d : Nat)
  | SentOn (d : Nat)
  | SentSince (d : Nat)
  | Since (d : Nat)
  | Smaller (n : Nat)
  | Subject (t : String)
  | Text (t : String)
  | To (t : String)
  | Unanswered | Undeleted | Undraft | Unflagged
  | Unkeyword (k : String)
  | Unseen
  | And | Or | Not | End
  | Recent | New | Old
  | Older (s : Nat)
  | Younger (s : Nat)
  | ModSeq (m : Nat)
  | EmailId (id : String)
  | ThreadId (id : String)
deriving DecidableEq, Repr

/-- Token construction for the HEADER filter (search.rs:371-390): split the
value on ASCII whitespace, drop tokens at least MAX_TOKEN_LENGTH bytes
long, prefix each with the header's numeric id as a decimal string,
lower-casing the token unless the header is id-like. -/
def headerTokens (env : QueryEnv) (hn : HName) (v : String) : List String :=
  if !v.isEmpty then
    (splitAsciiWhitespace v).filterMap fun tok =>
      if tok.utf8ByteSize < env.maxTokenLength then
        some (toString (headerId hn) ++ (if isIdHeader hn then tok else tok.toLower))
      else none
  else []

/-- The atoms pushed for one IMAP filter (the body of the big match in
search.rs:279-643); `mids` is the `message_ids` universe bound at
search.rs:257-275. -/
def emitFilter (env : QueryEnv) (mids : List Nat) : SFilter → Except String (List QFilter)
  | .Sequence seq uidFilter =>
    match seq, env.prevSavedSearch with
    | .SavedSearch, some prev =>
      match prev with
      | some items => .ok [QFilter.is_in_set (savedSearchSet env.uid_to_id items)]
      | none => .error "No saved search found."
    | sq, _ =>
      match sequence_to_ids env sq (env.isUid || uidFilter) with
      | .ok keys => .ok [QFilter.is_in_set (keys.foldl bmInsert [])]
      | .error e => .error e
  | .All => .ok [QFilter.is_in_set mids]
  | .Answered => .ok [QFilter.is_in_bitmap .Keywords (.kw .Answered)]
  | .Bcc t => .ok [QFilter.has_text .Bcc t .None]
  | .Before d => .ok [QFilter.lt .ReceivedAt d]
  | .Body t => .ok [QFilter.has_text_detect .TextBody t]
  | .Cc t => .ok [QFilter.has_text .Cc t .None]
  | .Deleted => .ok [QFilter.is_in_bitmap .Keywords (.kw .Deleted)]
  | .Draft => .ok [QFilter.is_in_bitmap .Keywords (.kw .Draft)]
  | .Flagged => .ok [QFilter.is_in_bitmap .Keywords (.kw .Flagged)]
  | .From t => .ok [QFilter.has_text .From t .None]
  | .Header h v =>
    match env.parseHeaderName h with
    | some (.Other _) =>
      .error ("Querying non-RFC header " ++ squote ++ h ++ squote ++ " is not allowed.")
    | none =>
      .error ("Querying non-RFC header " ++ squote ++ h ++ squote ++ " is not allowed.")
    | some hn =>
      match headerTokens env hn v with
      | [] => .ok [QFilter.has_raw_text .Headers (toString (headerId hn))]
      | [t] => .ok [QFilter.has_raw_text .Headers t]
      | ts => .ok ([QFilter.And] ++ ts.map (QFilter.has_raw_text .Headers) ++ [QFilter.End])
  | .Keyword k => .ok [QFilter.is_in_bitmap .Keywords (.kw (Keyword.ofString k))]
  | .Larger n => .ok [QFilter.gt .Size n]
  | .On d => .ok [QFilter.And, QFilter.ge .ReceivedAt d,
      QFilter.lt .ReceivedAt (d + 86400), QFilter.End]
  | .Seen => .ok [QFilter.is_in_bitmap .Keywords (.kw .Seen)]
  | .SentBefore d => .ok [QFilter.lt .SentAt d]
  | .SentOn d => .ok [QFilter.And, QFilter.ge .SentAt d,
      QFilter.lt .SentAt (d + 86400), QFilter.End]
  | .SentSince d => .ok [QFilter.ge .SentAt d]
  | .Since d => .ok [QFilter.ge .ReceivedAt d]
  | .Smaller n => .ok [QFilter.lt .Size n]
  | .Subject t => .ok [QFilter.has_text_detect .Subject t]
  | .Text t => .ok [QFilter.Or,
      QFilter.has_text .From t .None,
      QFilter.has_text .To t .None,
      QFilter.has_text .Cc t .None,
      QFilter.has_text .Bcc t .None,
      QFilter.has_text_detect .Subject t,
      QFilter.has_text_detect .TextBody t,
      QFilter.has_text_detect .Attachments t,
      QFilter.End]
  | .To t => .ok [QFilter.has_text .To t .None]
  | .Unanswered => .ok [QFilter.Not,
      QFilter.is_in_bitmap .Keywords (.kw .Answered), QFilter.End]
  | .Undeleted => .ok [QFilter.Not,
      QFilter.is_in_bitmap .Keywords (.kw .Deleted), QFilter.End]
  | .Undraft => .ok [QFilter.Not,
      QFilter.is_in_bitmap .Keywords (.kw .Draft), QFilter.End]
  | .Unflagged => .ok [QFilter.Not,
      QFilter.is_in_bitmap .Keywords (.kw .Flagged), QFilter.End]
  | .Unkeyword k => .ok [QFilter.Not,
      QFilter.is_in_bitmap .Keywords (.kw (Keyword.ofString k)), QFilter.End]
  | .Unseen => .ok [QFilter.Not,
      QFilter.is_in_bitmap .Keywords (.kw .Seen), QFilter.End]
  | .And => .ok [QFilter.And]
  | .Or => .ok [QFilter.Or]
  | .Not => .ok [QFilter.Not]
  | .End => .ok [QFilter.End]
  | .Recent => .ok [QFilter.is_in_bitmap .Keywords (.kw .Recent)]
  | .New => .ok [QFilter.And,
      QFilter.is_in_bitmap .Keywords (.kw .Recent),
      QFilter.Not,
      QFilter.is_in_bitmap .Keywords (.kw .Seen),
      QFilter.End, QFilter.End]
  | .Old => .ok [QFilter.Not,
      QFilter.is_in_bitmap .Keywords (.kw .Seen), QFilter.End]
  | .Older s => .ok [QFilter.le .ReceivedAt (env.nowVal - s)]
  | .Younger s => .ok [QFilter.ge .ReceivedAt (env.nowVal - s)]
  | .ModSeq m =>
    .ok [QFilter.is_in_set ((env.changesSince m).foldl
      (fun s c =>
        let id := c % 4294967296
        if mids.contains id then bmInsert s id else s) [])]
  | .EmailId i =>
    match env.idFromBytes i with
    | some d => .ok [QFilter.is_in_set [d]]
    | none =>
      .error ("Failed to parse email id " ++ squote ++ i ++ squote ++ ".")
  | .ThreadId i =>
    match env.idFromBytes i with
    | some d => .ok [QFilter.is_in_bitmap .ThreadId (.docId d)]
    | none =>
      .error ("Failed to parse thread id " ++ squote ++ i ++ squote ++ ".")

/-- The compiler loop (search.rs:279-644): atoms are pushed per filter in
order; the first failing filter aborts the whole search. -/
def compileLoop (env : QueryEnv) (mids : List Nat) :
    List SFilter → Except String (List QFilter)
  | [] => .ok []
  | f :: fs =>
    match emitFilter env mids f with
    | .error e => .error e
    | .ok c =>
      match compileLoop env mids fs with
      | .error e => .error e
      | .ok l => .ok (c ++ l)

/-- The filter sets `include_highest_modseq` (search.rs:600-619). -/
def isModSeqFilter : SFilter → Bool
  | .ModSeq _ => true
  | _ => false

/-- The document-id universe of search.rs:257-275: the MailboxIds tag
bitmap for a real mailbox, all Email document ids for "all mail". -/
def universeOf (env : QueryEnv) : Option Nat → List Nat
  | some _ => env.getTagResult
  | none => env.allDocumentIds

/-- `SessionData::query` (search.rs:248-652): for a real mailbox
(`mailbox_id = some _`) the MailboxIds tag bitmap is read, pushed as a
leading `is_in_set`, and becomes the universe; for the virtual "all mail"
mailbox the universe is all document ids of the Email collection and
nothing is pushed.  The result pairs the compiled atoms with
`include_highest_modseq`. -/
def query (env : QueryEnv) (mailbox_id : Option Nat) (fs : List SFilter) :
    Except String (List QFilter × Bool) :=
  let initFilters : List QFilter :=
    match mailbox_id with
    | some _ => [QFilter.is_in_set env.getTagResult]
    | none => []
  match compileLoop env (universeOf env mailbox_id) fs with
  | .ok l => .ok (initFilters ++ l, fs.any isModSeqFilter)
  | .error e => .error e

/-! ## Balance of the compiled postfix expression (C6) -/

/-- Nesting delta of a compiled atom: grouping openers count +1, `End`
counts -1, leaves 0. -/
def wdelta : QFilter → Int
  | .And | .Or | .Not => 1
  | .End => -1
  | _ => 0

/-- Nesting delta of an input IMAP filter marker. -/
def sdelta : SFilter → Int
  | .And | .Or | .Not => 1
  | .End => -1
  | _ => 0

/-- Total nesting depth of a compiled atom list. -/
def wdepth : List QFilter → Int
  | [] => 0
  | f :: l => wdelta f + wdepth l

/-- Total nesting depth of an input filter list. -/
def sdepth : List SFilter → Int
  | [] => 0
  | f :: l => sdelta f + sdepth l

/-- Every prefix of the atom list keeps the running depth (started at `d`)
non-negative: no `End` closes a group that was never opened. -/
def wPrefixNonneg : Int → List QFilter → Bool
  | _, [] => true
  | d, f :: l => decide (0 ≤ d + wdelta f) && wPrefixNonneg (d + wdelta f) l

/-- Every prefix of the input filter list keeps the running depth
non-negative. -/
def sPrefixNonneg : Int → List SFilter → Bool
  | _, [] => true
  | d, f :: l => decide (0 ≤ d + sdelta f) && sPrefixNonneg (d + sdelta f) l

theorem wdepth_append (a b : List QFilter) :
    wdepth (a ++ b) = wdepth a + wdepth b := by
  induction a with
  | nil => simp [wdepth]
  | cons f l ih => simp [wdepth, ih]; ring

theorem wPrefixNonneg_append (a b : List QFilter) :
    ∀ d : Int, wPrefixNonneg d (a ++ b) =
      (wPrefixNonneg d a && wPrefixNonneg (d + wdepth a) b) := by
  induction a with
  | nil => intro d; simp [wPrefixNonneg, wdepth]
  | cons f l ih =>
    intro d
    simp only [List.cons_append, wPrefixNonneg, wdepth, List.append_eq]
    rw [ih, Bool.and_assoc, Int.add_assoc]

theorem wPrefixNonneg_raws (ts : List String) :
    ∀ d : Int, 0 ≤ d →
      wPrefixNonneg d (ts.map (QFilter.has_raw_text .Headers)) = true ∧
      wdepth (ts.map (QFilter.has_raw_text .Headers)) = 0 := by
  induction ts with
  | nil => intro d _; simp [wPrefixNonneg, wdepth]
  | cons t ts ih =>
    intro d hd
    have := ih d hd
    simp only [List.map_cons, wPrefixNonneg, wdepth, wdelta, Int.add_zero]
    refine ⟨?_, by simp [this.2]⟩
    simp [decide_eq_true_eq, hd, this.1]

theorem chunk_inset (x : List Nat) (d : Int) (hd : 0 ≤ d) :
    wdepth [QFilter.is_in_set x] = 0 ∧
    wPrefixNonneg d [QFilter.is_in_set x] = true := by
  simp [wdepth, wdelta, wPrefixNonneg, decide_eq_true_eq, hd]

theorem chunk_leaf (q : QFilter) (d : Int) (hq : wdelta q = 0) (hd : 0 ≤ d) :
    wdepth [q] = 0 ∧ wPrefixNonneg d [q] = true := by
  simp [wdepth, wPrefixNonneg, hq, decide_eq_true_eq, hd]

theorem chunk_and_raws (ts : List String) (d : Int) (hd : 0 ≤ d) :
    wdepth ([QFilter.And] ++ ts.map (QFilter.has_raw_text .Headers)
      ++ [QFilter.End]) = 0 ∧
    wPrefixNonneg d ([QFilter.And] ++ ts.map (QFilter.has_raw_text .Headers)
      ++ [QFilter.End]) = true := by
  have hraws := wPrefixNonneg_raws ts (d + 1) (by omega)
  constructor
  · rw [wdepth_append, wdepth_append, hraws.2]
    simp [wdepth, wdelta]
  · rw [List.append_assoc, wPrefixNonneg_append]
    have h1 : wPrefixNonneg d [QFilter.And] = true := by
      simp [wPrefixNonneg, wdelta, decide_eq_true_eq]; omega
    have hdep : wdepth [QFilter.And] = 1 := by simp [wdepth, wdelta]
    rw [h1, wPrefixNonneg_append, hdep, hraws.1, hraws.2]
    simp [wPrefixNonneg, wdelta, decide_eq_true_eq]
    omega

theorem emitFilter_balance (env : QueryEnv) (mids : List Nat) (f : SFilter)
    (c : List QFilter) (d : Int) (hd : 0 ≤ d) (hd2 : 0 ≤ d + sdelta f)
    (h : emitFilter env mids f = Except.ok c) :
    wdepth c = sdelta f ∧ wPrefixNonneg d c = true := by
  cases f
  case Sequence seq uf =>
    simp only [emitFilter] at h
    split at h
    · split at h
      · obtain rfl := Except.ok.inj h
        exact chunk_inset _ d hd
      · exact absurd h (by simp)
    · split at h
      · obtain rfl := Except.ok.inj h
        exact chunk_inset _ d hd
      · exact absurd h (by simp)
  case Header hh vv =>
    simp only [emitFilter] at h
    split at h
    · exact absurd h (by simp)
    · exact absurd h (by simp)
    · split at h
      · obtain rfl := Except.ok.inj h
        exact chunk_leaf _ d rfl hd
      · obtain rfl := Except.ok.inj h
        exact chunk_leaf _ d rfl hd
      · obtain rfl := Except.ok.inj h
        exact chunk_and_raws _ d hd
  case ModSeq m =>
    simp only [emitFilter] at h
    obtain rfl := Except.ok.inj h
    exact chunk_inset _ d hd
  case EmailId i =>
    simp only [emitFilter] at h
    split at h
    · obtain rfl := Except.ok.inj h
      exact chunk_inset _ d hd
    · exact absurd h (by simp)
  case ThreadId i =>
    simp only [emitFilter] at h
    split at h
    · obtain rfl := Except.ok.inj h
      exact chunk_leaf _ d rfl hd
    · exact absurd h (by simp)
  all_goals
    simp only [emitFilter] at h
    obtain rfl := Except.ok.inj h
    constructor
    · simp [wdepth, wdelta, sdelta]
    · simp only [sdelta] at hd2
      simp [wPrefixNonneg, wdelta, decide_eq_true_eq] <;> omega

theorem compileLoop_balance (env : QueryEnv) (mids : List Nat) :
    ∀ (fs : List SFilter) (l : List QFilter) (d : Int),
      compileLoop env mids fs = Except.ok l → 0 ≤ d →
      sPrefixNonneg d fs = true →
      wdepth l = sdepth fs ∧ wPrefixNonneg d l = true := by
  intro fs
  induction fs with
  | nil =>
    intro l d h _ _
    obtain rfl := Except.ok.inj h
    simp [wdepth, sdepth, wPrefixNonneg]
  | cons f fs ih =>
    intro l d h hd hs
    cases hc : emitFilter env mids f with
    | error e => rw [compileLoop, hc] at h; exact absurd h (by simp)
    | ok c =>
      cases hl : compileLoop env mids fs with
      | error e => rw [compileLoop, hc, hl] at h; exact absurd h (by simp)
      | ok l' =>
        rw [compileLoop, hc, hl] at h
        obtain rfl := Except.ok.inj h
        simp only [sPrefixNonneg, Bool.and_eq_true, decide_eq_true_eq] at hs
        obtain ⟨hd2, hrest⟩ := hs
        obtain ⟨hdep, hpre⟩ :=
          emitFilter_balance env mids f c d hd (by omega) hc
        obtain ⟨hdep', hpre'⟩ := ih l' (d + sdelta f) hl (by omega) hrest
        constructor
        · rw [wdepth_append, hdep, hdep']
          simp [sdepth]
        · rw [wPrefixNonneg_append, hpre, hdep, hpre']
          rfl

/-- **C6** (amended nothing — as claimed): if the input IMAP filter list is
itself balanced (non-negative running nesting, total depth zero), then
every successfully compiled postfix expression is balanced: each
`And`/`Or`/`Not` pushed by the compiler — including the composite emissions
for UNxxx, ON, SENTON, TEXT, multi-token HEADER, NEW and OLD — has a
matching `End`, and no `End` closes an unopened group. -/
theorem c6_compiled_filters_balanced (env : QueryEnv) (mbid : Option Nat)
    (fs : List SFilter) (l : List QFilter) (b : Bool)
    (hok : query env mbid fs = Except.ok (l, b))
    (hpre : sPrefixNonneg 0 fs = true) (hdep : sdepth fs = 0) :
    wPrefixNonneg 0 l = true ∧ wdepth l = 0 := by
  unfold query at hok
  cases hl : compileLoop env (universeOf env mbid) fs with
  | error e => rw [hl] at hok; exact absurd hok (by simp)
  | ok l' =>
    rw [hl] at hok
    obtain ⟨h1, h2⟩ := Prod.mk.injEq .. ▸ Except.ok.inj hok
    obtain ⟨hdep', hpre'⟩ :=
      compileLoop_balance env (universeOf env mbid) fs l' 0 hl le_rfl hpre
    cases mbid with
    | none =>
      simp only [List.nil_append] at h1
      subst h1
      exact ⟨hpre', by rw [hdep', hdep]⟩
    | some mid =>
      subst h1
      constructor
      · rw [wPrefixNonneg_append]
        have : wPrefixNonneg 0 [QFilter.is_in_set env.getTagResult] = true := by
          simp [wPrefixNonneg, wdelta]
        rw [this]
        simpa [wdepth, wdelta] using hpre'
      · rw [wdepth_append, hdep', hdep]
        simp [wdepth, wdelta]

/-- A concrete environment for witnesses: a real-mailbox tag bitmap
`[1, 2]`, three documents overall, no saved search, trivial resolvers. -/
def envW : QueryEnv :=
  { getTagResult := [1, 2]
    allDocumentIds := [1, 2, 3]
    prevSavedSearch := none
    savedSlot := none
    uid_to_id := []
    litSeq := fun _ _ => Except.ok []
    parseHeaderName := fun _ => none
    maxTokenLength := 51
    nowVal := 1000
    changesSince := fun _ => []
    idFromBytes := fun _ => none
    isUid := false }

/-- Witness for `c6_compiled_filters_balanced` on `AND ANSWERED END`
against a real mailbox. -/
theorem c6_witness :
    wPrefixNonneg 0 [QFilter.is_in_set [1, 2], QFilter.And,
      QFilter.is_in_bitmap Property.Keywords (BmValue.kw Keyword.Answered),
      QFilter.End] = true ∧
    wdepth [QFilter.is_in_set [1, 2], QFilter.And,
      QFilter.is_in_bitmap Property.Keywords (BmValue.kw Keyword.Answered),
      QFilter.End] = 0 :=
  c6_compiled_filters_balanced envW (some 7)
    [SFilter.And, SFilter.Answered, SFilter.End] _ _ rfl (by decide) (by decide)

/-- Recognizer for the shape demanded by the claim: the compiled list
begins with an `is_in_set` atom. -/
def isLeadingInSet : List QFilter → Bool
  | QFilter.is_in_set _ :: _ => true
  | _ => false

/-- **C2** (counterexample): against the virtual "all mail" mailbox
(`mailbox_id = none`) the compiler pushes no leading universe `is_in_set`;
compiling `ANSWERED` yields a single keyword bitmap atom, so the postfix
expression does not begin with `InSet(universe)`. -/
theorem c2_counterexample :
    query envW none [SFilter.Answered] =
      Except.ok ([QFilter.is_in_bitmap Property.Keywords
        (BmValue.kw Keyword.Answered)], false) ∧
    isLeadingInSet [QFilter.is_in_bitmap Property.Keywords
      (BmValue.kw Keyword.Answered)] = false :=
  ⟨rfl, rfl⟩

/-- **C2** (amended): for a real selected mailbox every successfully
compiled SEARCH begins with the leading `is_in_set` of the mailbox's
MailboxIds tag bitmap; the `ALL` filter itself always compiles to
`is_in_set(universe)` wherever it appears (for "all mail" the universe is
all Email document ids, but no leading universe atom is pushed). -/
theorem c2_leading_universe (env : QueryEnv) (mid : Nat) (fs : List SFilter)
    (l : List QFilter) (b : Bool)
    (hok : query env (some mid) fs = Except.ok (l, b)) :
    l.head? = some (QFilter.is_in_set env.getTagResult) ∧
    (∀ (env' : QueryEnv) (mids : List Nat),
      emitFilter env' mids SFilter.All = Except.ok [QFilter.is_in_set mids]) := by
  refine ⟨?_, fun _ _ => rfl⟩
  unfold query at hok
  cases hl : compileLoop env (universeOf env (some mid)) fs with
  | error e => rw [hl] at hok; exact absurd hok (by simp)
  | ok l' =>
    rw [hl] at hok
    obtain ⟨h1, _⟩ := Prod.mk.injEq .. ▸ Except.ok.inj hok
    subst h1
    rfl

/-- Witness for `c2_leading_universe`. -/
theorem c2_witness :
    ([QFilter.is_in_set [1, 2], QFilter.is_in_set [1, 2]] : List QFilter).head? =
      some (QFilter.is_in_set envW.getTagResult) ∧
    (∀ (env' : QueryEnv) (mids : List Nat),
      emitFilter env' mids SFilter.All = Except.ok [QFilter.is_in_set mids]) :=
  c2_leading_universe envW 7 [SFilter.All] _ _ rfl

theorem mem_bmInsert (l : List Nat) (x y : Nat) :
    y ∈ bmInsert l x ↔ y ∈ l ∨ y = x := by
  unfold bmInsert
  split
  · rename_i hc
    have hx : x ∈ l := by simpa using hc
    constructor
    · exact Or.inl
    · rintro (h | rfl)
      · exact h
      · exact hx
  · simp

theorem mem_savedSearchSet_aux (uidToId : List (Nat × Nat)) :
    ∀ (items : List ImapId) (s : List Nat) (x : Nat),
      (x ∈ items.foldl
        (fun s i =>
          match uidToId.lookup i.uid with
          | some id => bmInsert s id
          | none => s) s) ↔
      x ∈ s ∨ ∃ i ∈ items, uidToId.lookup i.uid = some x := by
  intro items
  induction items with
  | nil => simp
  | cons i items ih =>
    intro s x
    rw [List.foldl_cons]
    cases hl : uidToId.lookup i.uid with
    | none =>
      simp only [hl, ih, List.mem_cons]
      constructor
      · rintro (h | h)
        · exact Or.inl h
        · exact Or.inr (h.imp fun j hj => ⟨Or.inr hj.1, hj.2⟩)
      · rintro (h | ⟨j, hj | hj, hlk⟩)
        · exact Or.inl h
        · subst hj; rw [hl] at hlk; exact absurd hlk (by simp)
        · exact Or.inr ⟨j, hj, hlk⟩
    | some id =>
      simp only [hl, ih, mem_bmInsert, List.mem_cons]
      constructor
      · rintro ((h | rfl) | h)
        · exact Or.inl h
        · exact Or.inr ⟨i, Or.inl rfl, hl⟩
        · exact Or.inr (h.imp fun j hj => ⟨Or.inr hj.1, hj.2⟩)
      · rintro (h | ⟨j, hj | hj, hlk⟩)
        · exact Or.inl (Or.inl h)
        · subst hj; rw [hl] at hlk
          exact Or.inl (Or.inr (Option.some.inj hlk).symm)
        · exact Or.inr ⟨j, hj, hlk⟩

theorem mem_savedSearchSet (uidToId : List (Nat × Nat)) (items : List ImapId)
    (x : Nat) :
    x ∈ savedSearchSet uidToId items ↔
      ∃ i ∈ items, uidToId.lookup i.uid = some x := by
  unfold savedSearchSet
  rw [mem_savedSearchSet_aux]
  simp

theorem compileLoop_first_error (env : QueryEnv) (mids : List Nat) :
    ∀ (pre : List SFilter) (f : SFilter) (post : List SFilter) (e : String),
      (∀ g ∈ pre, ∃ c, emitFilter env mids g = Except.ok c) →
      emitFilter env mids f = Except.error e →
      compileLoop env mids (pre ++ f :: post) = Except.error e := by
  intro pre
  induction pre with
  | nil =>
    intro f post e _ hf
    rw [List.nil_append, compileLoop, hf]
  | cons g pre ih =>
    intro f post e hok hf
    obtain ⟨c, hc⟩ := hok g (List.mem_cons_self _ _)
    rw [List.cons_append, compileLoop, hc,
      ih f post e (fun g' hg' => hok g' (List.mem_cons_of_mem _ hg')) hf]

/-- **C7**: resolution of the saved-search sequence `$` (search.rs:281-305):
with no prior saved search the filter emission — and with it the whole
query compilation — fails with "No saved search found." and produces no
atoms; with a prior saved search the saved ImapIds are translated through
the mailbox state's `uid_to_id` map into a single `is_in_set` bitmap, ids
absent from the map being dropped.  The no-SAVE path (`prevSavedSearch =
none`) resolves through the spec-modelled `sequence_to_ids`. -/
theorem c7_saved_search_sequence (env : QueryEnv) (mids : List Nat) (uf : Bool) :
    ((env.prevSavedSearch = some none ∨
        (env.prevSavedSearch = none ∧ env.savedSlot = none)) →
      emitFilter env mids (SFilter.Sequence Sequence.SavedSearch uf) =
        Except.error "No saved search found." ∧
      ∀ (mbid : Option Nat) (pre post : List SFilter),
        (∀ g ∈ pre, ∃ c, emitFilter env (universeOf env mbid) g = Except.ok c) →
        query env mbid
            (pre ++ SFilter.Sequence Sequence.SavedSearch uf :: post) =
          Except.error "No saved search found.") ∧
    (∀ items, env.prevSavedSearch = some (some items) →
      emitFilter env mids (SFilter.Sequence Sequence.SavedSearch uf) =
        Except.ok [QFilter.is_in_set (savedSearchSet env.uid_to_id items)] ∧
      ∀ x, x ∈ savedSearchSet env.uid_to_id items ↔
        ∃ i ∈ items, env.uid_to_id.lookup i.uid = some x) := by
  have hemit : (env.prevSavedSearch = some none ∨
      (env.prevSavedSearch = none ∧ env.savedSlot = none)) →
      ∀ m : List Nat,
        emitFilter env m (SFilter.Sequence Sequence.SavedSearch uf) =
          Except.error "No saved search found." := by
    rintro (hp | ⟨hp, hs⟩) m
    · simp only [emitFilter, hp]
    · simp only [emitFilter, hp, sequence_to_ids, hs]
  constructor
  · intro hno
    refine ⟨hemit hno mids, ?_⟩
    intro mbid pre post hok
    unfold query
    rw [compileLoop_first_error env (universeOf env mbid) pre _ post _ hok
      (hemit hno (universeOf env mbid))]
  · intro items hp
    constructor
    · simp only [emitFilter, hp]
    · exact mem_savedSearchSet env.uid_to_id items

/-- Witness for `c7_saved_search_sequence`: no saved search exists, the
whole compilation of `SEARCH $` fails with the tagged NO text. -/
theorem c7_witness :
    query envW none [SFilter.Sequence Sequence.SavedSearch false] =
      Except.error "No saved search found." :=
  ((c7_saved_search_sequence envW [] false).1 (Or.inr ⟨rfl, rfl⟩)).2 none [] []
    (fun g hg => absurd hg (List.not_mem_nil g))

/-! ## Search executor id mapping (`SelectedMailbox::map_search_results`,
crates/imap/src/op/search.rs:142-214 and 671-741) -/

/-- `core::MailboxState` as consumed by the executor: the uid→document and
document→ImapId maps; `next_id_to_imap` is the `id_to_imap` of the
post-expunge successor state (`next_state.next_state.id_to_imap`). -/
structure MailboxState where
  uid_to_id : List (Nat × Nat)
  id_to_imap : List (Nat × ImapId)
  next_id_to_imap : Option (List (Nat × ImapId))

/-- `MailboxState::map_result_id` (search.rs:728-741): look the document id
up in `id_to_imap`, returning the uid or seqnum together with the ImapId;
on a miss fall back to the successor state when `is_uid`, else drop. -/
def map_result_id (st : MailboxState) (document_id : Nat) (is_uid : Bool) :
    Option (Nat × ImapId) :=
  match st.id_to_imap.lookup document_id with
  | some imap_id =>
    some (if is_uid then imap_id.uid else imap_id.seqnum, imap_id)
  | none =>
    if is_uid then
      st.next_id_to_imap.bind fun m =>
        (m.lookup document_id).map fun imap_id => (imap_id.uid, imap_id)
    else none

/-- `imap_proto` `search::ResultOption`. -/
inductive ResultOption where
  | Min | Max | Count | All | Save
deriving DecidableEq, BEq, Repr

/-- The mutable aggregates of the mapping loop (search.rs:142-151):
`min`, `max`, `total`, `imap_ids`, `saved_results`. -/
structure SearchAcc where
  min : Option (Nat × ImapId)
  max : Option (Nat × ImapId)
  total : Nat
  imap_ids : List Nat
  saved_results : Option (List ImapId)
deriving DecidableEq, Repr

/-- The min update of search.rs:689-697: replace on strictly smaller id. -/
def stepMin (m : Option (Nat × ImapId)) (p : Nat × ImapId) :
    Option (Nat × ImapId) :=
  match m with
  | some q => if p.1 < q.1 then some p else some q
  | none => some p

/-- The max update of search.rs:698-706: replace on strictly larger id. -/
def stepMax (m : Option (Nat × ImapId)) (p : Nat × ImapId) :
    Option (Nat × ImapId) :=
  match m with
  | some q => if p.1 > q.1 then some p else some q
  | none => some p

/-- One mapped result (search.rs:687-714): when Min or Max is requested
only the candidates are updated; otherwise the id is appended to
`imap_ids` and the ImapId to the optional `saved_results`; `total` always
increments. -/
def mapStep (find_min find_max : Bool) (acc : SearchAcc) (p : Nat × ImapId) :
    SearchAcc :=
  let acc' :=
    if find_min || find_max then
      let acc1 := if find_min then { acc with min := stepMin acc.min p } else acc
      if find_max then { acc1 with max := stepMax acc1.max p } else acc1
    else
      { acc with
        imap_ids := acc.imap_ids ++ [p.1]
        saved_results := acc.saved_results.map (fun r => r ++ [p.2]) }
  { acc' with total := acc'.total + 1 }

/-- `SelectedMailbox::map_search_results` (search.rs:672-724): fold the
mapped document ids through `mapStep`, then — when Min or Max was
requested — push the surviving min and max candidates (in that order) onto
`imap_ids` and `saved_results`. -/
def map_search_results (st : MailboxState) (ids : List Nat)
    (is_uid find_min find_max : Bool) (acc0 : SearchAcc) : SearchAcc :=
  let acc := ids.foldl
    (fun a document_id =>
      match map_result_id st document_id is_uid with
      | some r => mapStep find_min find_max a r
      | none => a)
    acc0
  if find_min || find_max then
    { acc with
      imap_ids :=
        acc.imap_ids ++ (acc.min.toList ++ acc.max.toList).map Prod.fst
      saved_results := acc.saved_results.map
        (fun r => r ++ (acc.min.toList ++ acc.max.toList).map Prod.snd) }
  else acc

/-- Insertion into a sorted list (model of `sort_unstable` on ids). -/
def insertSorted (x : Nat) : List Nat → List Nat
  | [] => [x]
  | y :: l => if x ≤ y then x :: y :: l else y :: insertSorted x l

/-- Ascending sort of the final id vector (search.rs:212). -/
def sortNats (l : List Nat) : List Nat := l.foldr insertSorted []

/-- The mapping phase of `SessionData::search` (search.rs:142-214):
`saved_results` starts as `some []` exactly when RESULT SAVE installed a
results channel; with sort criteria the store-sorted ids are mapped as
they come, otherwise the raw result-set ids are mapped and the final id
vector is sorted ascending.  Both branches pass
`result_options.contains(Min)` / `contains(Max)` unchanged. -/
def searchMapPhase (st : MailboxState) (resultOptions : List ResultOption)
    (save : Bool) (sortPresent : Bool) (sortedIds rawIds : List Nat)
    (is_uid : Bool) : SearchAcc :=
  let acc0 : SearchAcc :=
    { min := none, max := none, total := 0, imap_ids := []
      saved_results := if save then some [] else none }
  if sortPresent then
    map_search_results st sortedIds is_uid
      (resultOptions.contains ResultOption.Min)
      (resultOptions.contains ResultOption.Max) acc0
  else
    let acc := map_search_results st rawIds is_uid
      (resultOptions.contains ResultOption.Min)
      (resultOptions.contains ResultOption.Max) acc0
    { acc with imap_ids := sortNats acc.imap_ids }

theorem foldl_mapped (st : MailboxState) (is_uid fmin fmax : Bool) :
    ∀ (ids : List Nat) (acc : SearchAcc),
      ids.foldl
        (fun a document_id =>
          match map_result_id st document_id is_uid with
          | some r => mapStep fmin fmax a r
          | none => a)
        acc =
      (ids.filterMap (fun d => map_result_id st d is_uid)).foldl
        (mapStep fmin fmax) acc := by
  intro ids
  induction ids with
  | nil => intro acc; rfl
  | cons d ids ih =>
    intro acc
    rw [List.foldl_cons, List.filterMap_cons]
    cases h : map_result_id st d is_uid <;> simp only [h, ih, List.foldl_cons]

theorem foldl_mapStep_plain :
    ∀ (l : List (Nat × ImapId)) (acc : SearchAcc),
      l.foldl (mapStep false false) acc =
        { min := acc.min, max := acc.max, total := acc.total + l.length,
          imap_ids := acc.imap_ids ++ l.map Prod.fst,
          saved_results :=
            acc.saved_results.map (fun r => r ++ l.map Prod.snd) } := by
  intro l
  induction l with
  | nil =>
    intro acc
    cases acc with
    | mk mn mx tot ids sv => cases sv <;> simp
  | cons p l ih =>
    intro acc
    rw [List.foldl_cons, ih]
    simp only [mapStep, Bool.or_self, Bool.false_eq_true, if_false]
    cases acc with
    | mk mn mx tot ids sv =>
      cases sv <;>
        simp [List.append_assoc, List.map_cons, Function.comp] <;> omega

theorem foldl_mapStep_minmax (fmin fmax : Bool) (hor : (fmin || fmax) = true) :
    ∀ (l : List (Nat × ImapId)) (acc : SearchAcc),
      l.foldl (mapStep fmin fmax) acc =
        { min := if fmin then l.foldl stepMin acc.min else acc.min,
          max := if fmax then l.foldl stepMax acc.max else acc.max,
          total := acc.total + l.length,
          imap_ids := acc.imap_ids,
          saved_results := acc.saved_results } := by
  intro l
  induction l with
  | nil =>
    intro acc
    cases acc with
    | mk mn mx tot ids sv => cases fmin <;> cases fmax <;> simp
  | cons p l ih =>
    intro acc
    rw [List.foldl_cons, ih, List.foldl_cons, List.foldl_cons]
    cases acc with
    | mk mn mx tot ids sv =>
      cases fmin <;> cases fmax <;> simp_all [mapStep] <;> omega

/-- The successfully mapped (id, ImapId) pairs of a result set. -/
def mappedResults (st : MailboxState) (iu : Bool) (ids : List Nat) :
    List (Nat × ImapId) :=
  ids.filterMap (fun d => map_result_id st d iu)

/-- The surviving min and max candidates, in push order. -/
def minMaxCandidates (fmin fmax : Bool) (l : List (Nat × ImapId)) :
    List (Nat × ImapId) :=
  (if fmin then l.foldl stepMin none else none).toList ++
    (if fmax then l.foldl stepMax none else none).toList

theorem map_search_results_plain (st : MailboxState) (iu save : Bool)
    (ids : List Nat) :
    map_search_results st ids iu false false
        ⟨none, none, 0, [], if save then some [] else none⟩ =
      ⟨none, none, (mappedResults st iu ids).length,
        (mappedResults st iu ids).map Prod.fst,
        if save then some ((mappedResults st iu ids).map Prod.snd)
        else none⟩ := by
  unfold map_search_results
  rw [foldl_mapped, foldl_mapStep_plain]
  cases save <;> simp [mappedResults]

theorem map_search_results_minmax (st : MailboxState) (iu fmin fmax save : Bool)
    (hor : (fmin || fmax) = true) (ids : List Nat) :
    map_search_results st ids iu fmin fmax
        ⟨none, none, 0, [], if save then some [] else none⟩ =
      ⟨(if fmin then (mappedResults st iu ids).foldl stepMin none else none),
        (if fmax then (mappedResults st iu ids).foldl stepMax none else none),
        (mappedResults st iu ids).length,
        (minMaxCandidates fmin fmax (mappedResults st iu ids)).map Prod.fst,
        if save then
          some ((minMaxCandidates fmin fmax (mappedResults st iu ids)).map
            Prod.snd)
        else none⟩ := by
  unfold map_search_results
  rw [foldl_mapped, foldl_mapStep_minmax fmin fmax hor, hor]
  cases save <;> simp [mappedResults, minMaxCandidates]

/-- A two-message mailbox state for the C9 counterexample and witness:
documents 1 and 2 carry UIDs 10 and 11. -/
def stW : MailboxState :=
  ⟨[(10, 1), (11, 2)], [(1, ⟨10, 1⟩), (2, ⟨11, 2⟩)], none⟩

/-- **C9** (counterexample): with sort criteria present and MIN requested,
the executor still skips the full result list — contrary to the claim that
the skip happens only when sort is absent.  Both documents map, yet only
the min candidate reaches `imap_ids`. -/
theorem c9_counterexample :
    (searchMapPhase stW [ResultOption.Min] false true [1, 2] [] true).imap_ids
      = [10] ∧
    ¬ (searchMapPhase stW [ResultOption.Min] false true [1, 2] []
        true).imap_ids = [10, 11] :=
  ⟨rfl, by decide⟩

/-- **C9** (amended): the executor collects only the min/max candidates and
skips building the full result list exactly when the Min or Max return
options are set, regardless of sort (both branches of search.rs:152-214
pass `contains(Min)`/`contains(Max)` unchanged); in every other case each
mapped id is appended to the result list and, when RESULT SAVE is active,
its ImapId to the saved-results list (the unsorted branch finally sorts
the ids). -/
theorem c9_minmax_skip (st : MailboxState) (ropts : List ResultOption)
    (save sp iu : Bool) (sids rids : List Nat) :
    (ropts.contains ResultOption.Min = false →
      ropts.contains ResultOption.Max = false →
      (searchMapPhase st ropts save sp sids rids iu).imap_ids =
        (if sp then (mappedResults st iu sids).map Prod.fst
         else sortNats ((mappedResults st iu rids).map Prod.fst)) ∧
      (searchMapPhase st ropts save sp sids rids iu).saved_results =
        (if save then
          some ((mappedResults st iu (if sp then sids else rids)).map Prod.snd)
         else none)) ∧
    ((ropts.contains ResultOption.Min = true ∨
        ropts.contains ResultOption.Max = true) →
      (searchMapPhase st ropts save sp sids rids iu).imap_ids =
        (if sp then
          (minMaxCandidates (ropts.contains ResultOption.Min)
            (ropts.contains ResultOption.Max)
            (mappedResults st iu sids)).map Prod.fst
         else
          sortNats ((minMaxCandidates (ropts.contains ResultOption.Min)
            (ropts.contains ResultOption.Max)
            (mappedResults st iu rids)).map Prod.fst)) ∧
      (searchMapPhase st ropts save sp sids rids iu).saved_results =
        (if save then
          some ((minMaxCandidates (ropts.contains ResultOption.Min)
            (ropts.contains ResultOption.Max)
            (mappedResults st iu (if sp then sids else rids))).map Prod.snd)
         else none)) := by
  constructor
  · intro h1 h2
    unfold searchMapPhase
    rw [h1, h2]
    cases sp <;>
      simp only [if_true, if_false, Bool.true_eq_false, Bool.false_eq_true,
        map_search_results_plain]
    · exact ⟨trivial, trivial⟩
    · exact ⟨trivial, trivial⟩
  · intro hor
    have hor' : (ropts.contains ResultOption.Min ||
        ropts.contains ResultOption.Max) = true := by
      rcases hor with h | h <;> simp [h]
    unfold searchMapPhase
    cases sp <;>
      simp only [if_true, if_false, Bool.true_eq_false, Bool.false_eq_true,
        map_search_results_minmax st iu _ _ save hor']
    · exact ⟨trivial, trivial⟩
    · exact ⟨trivial, trivial⟩

/-- Witness for `c9_minmax_skip`: MIN with sort present on the two-message
state keeps only the min candidate. -/
theorem c9_witness :
    (searchMapPhase stW [ResultOption.Min] false true [1, 2] [] true).imap_ids
        = (minMaxCandidates true false (mappedResults stW true [1, 2])).map
          Prod.fst ∧
    (searchMapPhase stW [ResultOption.Min] false true [1, 2] []
        true).saved_results = none := by
  have h := (c9_minmax_skip stW [ResultOption.Min] false true true [1, 2]
    []).2 (Or.inl rfl)
  exact ⟨h.1, h.2⟩

/-! ## Saved-search slot (`core::SavedSearch`,
crates/imap/src/op/search.rs:50-115, 216-223, 655-669, 744-757)

The watch channel is modelled synchronously: an `InFlight` slot carries
the value its receivers eventually observe. -/

/-- `SavedSearch`: empty, in flight (with the eventual broadcast value), or
settled results. -/
inductive SavedSearch where
  | none
  | inFlight (eventual : List ImapId)
  | results (items : List ImapId)
deriving DecidableEq, Repr

/-- `SelectedMailbox::get_saved_search` (search.rs:656-669): `Results`
yields its items, `InFlight` awaits the channel (modelled by its eventual
value), `None` yields nothing. -/
def get_saved_search : SavedSearch → Option (List ImapId)
  | SavedSearch.none => Option.none
  | SavedSearch.inFlight ev => some ev
  | SavedSearch.results items => some items

/-- The slot protocol of a SEARCH carrying RESULT SAVE (search.rs:66-109
and 216-223): the pre-command value is captured with `get_saved_search`
before `InFlight` is installed; on success the slot is set to `Results`
with the produced items (also broadcast through the channel); on failure
the captured value is restored, `map_or(SavedSearch::None, Results)` —
a previous `InFlight` downgrades to `Results`, an empty slot to `None`.
`outcome` is `some items` on success, `Option.none` on failure. -/
def searchSlotFinal (slot0 : SavedSearch) (outcome : Option (List ImapId)) :
    SavedSearch :=
  let prev := get_saved_search slot0
  match outcome with
  | some items => SavedSearch.results items
  | Option.none =>
    match prev with
    | some s => SavedSearch.results s
    | Option.none => SavedSearch.none

/-- **C4**: with RESULT SAVE, a successful search leaves the slot holding
exactly the produced results; a failed search restores the pre-command
value — `get_saved_search` observes no change — with a previous `InFlight`
downgraded to `Results` of its eventual items and an empty slot back to
`None`. -/
theorem c4_saved_search_slot (slot0 : SavedSearch)
    (items ev prev : List ImapId) :
    searchSlotFinal slot0 (some items) = SavedSearch.results items ∧
    get_saved_search (searchSlotFinal slot0 Option.none) =
      get_saved_search slot0 ∧
    searchSlotFinal SavedSearch.none Option.none = SavedSearch.none ∧
    searchSlotFinal (SavedSearch.inFlight ev) Option.none =
      SavedSearch.results ev ∧
    searchSlotFinal (SavedSearch.results prev) Option.none =
      SavedSearch.results prev := by
  refine ⟨rfl, ?_, rfl, rfl, rfl⟩
  cases slot0 <;> rfl
